import Mathlib

set_option maxRecDepth 8192

/-
Verification of the content synchronization pipeline of the Canvas course
rewriting tool (single-file Streamlit application, src/app.py).

Embedding conventions:
- Python strings are embedded as lists of characters (PyStr).
- Remote HTTP interaction is embedded explicitly: a harvest receives the
  sequence of listing responses (one entry per Link-header page, each either
  a decoded JSON body or the message of a raise_for_status failure) and a
  detail-fetch function; the write-back receives a function giving the
  outcome of each PUT request.
- The mutation of the per-course item registry (st.session_state) is
  embedded as explicit state passing: loops that mutate items in place
  become functions from the item list to the updated item list, and the
  write-back additionally returns the trace of issued remote calls and the
  collected failure list.
-/

/-- Python strings are embedded as lists of characters. -/
abbrev PyStr := List Char

/-- Python str.strip with no argument: remove leading and trailing
whitespace.  Used for the model-context normalization in
build_rewrite_prompt and for the final .strip() in rewrite_item. -/
def pyStrip (s : PyStr) : PyStr :=
  ((s.dropWhile Char.isWhitespace).reverse.dropWhile Char.isWhitespace).reverse

/-- The cap test of the harvest helpers, src/app.py lines 111, 137 and 162:
the Python condition is the truthiness test
max_items and len(items) >= max_items, so both None and 0 disable the
cap entirely. -/
def capHit (max_items : Option Nat) (n : Nat) : Bool :=
  match max_items with
  | none => false
  | some m => m != 0 && decide (m ≤ n)

/-- One entry of st.session_state content_items, as built by the sidebar
fetch handler (src/app.py lines 338-378).  url_slug is the key that is
present only on page items; rewrite_error is the optional key that only the
Step 3 loop ever adds. -/
structure ContentItem where
  type : PyStr
  id : Int
  canvas_id : Int
  url_slug : Option PyStr
  title : PyStr
  original_html : PyStr
  rewritten_html : PyStr
  rewrite_error : Option PyStr
  approved : Bool
deriving DecidableEq

/-- The cap on the model-context size, src/app.py line 207. -/
def max_model_chars : Nat := 12000

/-- The marker appended when the model context is truncated,
src/app.py line 209. -/
def truncation_marker : PyStr := "\n\n[Model context truncated for length.]".data

/-- Normalization and truncation of the model context performed at the top
of build_rewrite_prompt, src/app.py lines 205-209: the context is first
stripped, then cut to max_model_chars characters with the marker appended
when the stripped context is longer than the cap. -/
def truncate_model_context (model_context : PyStr) : PyStr :=
  if max_model_chars < (pyStrip model_context).length then
    (pyStrip model_context).take max_model_chars ++ truncation_marker
  else pyStrip model_context

/-- textwrap.dedent applied to the base_rules literal of
build_rewrite_prompt, src/app.py lines 211-225. -/
def base_rules : PyStr :=
  "\nYou are an expert Canvas HTML editor. Preserve links and anchors/IDs\n\nRequirements:\n- Preserve semantics and learning intent of the original.\n- Follow the policy. Return only HTML, no explanations.\n- Reformat the HTML using DesignPLUS styling.\n- Do not change the written content of the page, only the design.\n- Use Colorado State University branding colors.\n- Use the DesignPLUS theme from the model provided.\n- Place all iframes within DesignPLUS accordions.\n- The focus is on styling, structure, and accessibility — not changing the content.\n".data

/-- The default instruction text substituted when global_instructions is
falsy, src/app.py line 235. -/
def default_instructions : PyStr :=
  "If no additional instructions, just clean up structure and align with the model course style.".data

/-- The part of the prompt f-string (src/app.py lines 231-250) that comes
before the interpolated model context, including the interpolated
base_rules and global instructions. -/
def prompt_before_corpus (global_instructions : PyStr) : PyStr :=
  "\n    ".data ++ base_rules
    ++ "\n\n    ### Global instructions from the user\n    ".data
    ++ (if global_instructions = [] then default_instructions else global_instructions)
    ++ "\n\n    ### Model course/style examples\n    ".data

/-- The part of the prompt f-string after the interpolated model context:
item metadata, original HTML and the output instruction. -/
def prompt_after_corpus (item : ContentItem) : PyStr :=
  "\n\n    ### Target item metadata\n    - Type: ".data ++ item.type
    ++ "\n    - Title: ".data ++ item.title
    ++ "\n\n    ### Original HTML\n    ".data ++ item.original_html
    ++ "\n\n    ### Output\n    Rewrite the HTML above according to the global instructions and style of the model course.\n    Return ONLY the rewritten HTML.\n    ".data

/-- build_rewrite_prompt, src/app.py lines 199-252: the truncated model
context is concatenated between the fixed segments and the whole f-string
is stripped. -/
def build_rewrite_prompt (item : ContentItem) (model_context global_instructions : PyStr) : PyStr :=
  pyStrip (prompt_before_corpus global_instructions
    ++ truncate_model_context model_context
    ++ prompt_after_corpus item)

/-- rewrite_item, src/app.py lines 255-292.  The Chat Completions call is
embedded as the function api from the compiled prompt to either the
response text (resp.choices[0].message.content or "") or the message of the
exception the call raised; a successful response is stripped before being
returned. -/
def rewrite_item (api : PyStr → Except PyStr PyStr) (item : ContentItem)
    (model_context global_instructions : PyStr) : Except PyStr PyStr :=
  match api (build_rewrite_prompt item model_context global_instructions) with
  | Except.ok out => Except.ok (pyStrip out)
  | Except.error e => Except.error e

/-- Body of the rewrite-all loop for one item, src/app.py lines 499-506:
items with truthy original_html are rewritten (on success rewritten_html is
assigned, on an exception rewrite_error is assigned and nothing else
changes); items with falsy original_html get rewritten_html set to the
empty string. -/
def rewrite_step (api : PyStr → Except PyStr PyStr)
    (model_context global_instructions : PyStr) (item : ContentItem) : ContentItem :=
  if item.original_html.isEmpty then
    { item with rewritten_html := [] }
  else
    match rewrite_item api item model_context global_instructions with
    | Except.ok rewritten => { item with rewritten_html := rewritten }
    | Except.error e => { item with rewrite_error := some e }

/-- The rewrite-all loop of Step 3, src/app.py lines 497-510: every item of
the registry is processed in order and mutated in place. -/
def runAll (api : PyStr → Except PyStr PyStr)
    (model_context global_instructions : PyStr) (items : List ContentItem) : List ContentItem :=
  items.map (rewrite_step api model_context global_instructions)

/-- The Approve ALL items with proposed HTML handler, src/app.py lines
558-562: every item whose rewritten_html is truthy gets approved set to
True, all other items are untouched. -/
def approveAllRewritten (items : List ContentItem) : List ContentItem :=
  items.map fun item =>
    if item.rewritten_html.isEmpty then item else { item with approved := true }

/-- The selection of Step 5, src/app.py lines 581-584: the items whose
approved flag and rewritten_html are both truthy. -/
def select_approved (items : List ContentItem) : List ContentItem :=
  items.filter fun it => it.approved && !it.rewritten_html.isEmpty

/-- One PUT request issued by the write-back, carrying the payload of
update_page_html, update_assignment_html or update_discussion_html
(src/app.py lines 176-194). -/
inductive RemoteCall where
  | page (url_slug : PyStr) (html : PyStr)
  | assignment (assignment_id : Int) (html : PyStr)
  | discussion (topic_id : Int) (html : PyStr)
deriving DecidableEq

/-- The dispatch inside the try block of the write-back loop, src/app.py
lines 592-616: the call issued for an item, selected on the string type
field.  Reading item["url_slug"] on a page item that lacks the key raises
KeyError("url_slug"), whose str() rendering is the quoted key; an item of
an unknown type matches no branch and issues no call. -/
def item_update_call (item : ContentItem) : Except PyStr (Option RemoteCall) :=
  if item.type = "page".data then
    match item.url_slug with
    | some slug => Except.ok (some (RemoteCall.page slug item.rewritten_html))
    | none => Except.error "\x27url_slug\x27".data
  else if item.type = "assignment".data then
    Except.ok (some (RemoteCall.assignment item.canvas_id item.rewritten_html))
  else if item.type = "discussion".data then
    Except.ok (some (RemoteCall.discussion item.canvas_id item.rewritten_html))
  else
    Except.ok none

/-- One iteration of the write-back loop, src/app.py lines 591-618: the
dispatch runs inside try, and any exception (from the dispatch itself or
from the PUT) is recorded as the pair (item title, message).  The first
component is the list of PUT requests actually issued, the second the
failure entries appended by this iteration. -/
def commit_one (remote : RemoteCall → Except PyStr Unit) (item : ContentItem) :
    List RemoteCall × List (PyStr × PyStr) :=
  match item_update_call item with
  | Except.error e => ([], [(item.title, e)])
  | Except.ok none => ([], [])
  | Except.ok (some c) =>
    match remote c with
    | Except.ok _ => ([c], [])
    | Except.error e => ([c], [(item.title, e)])

/-- The write-back loop over the selected items, src/app.py lines 590-618,
accumulating the trace of issued PUT requests and the errors list in item
order. -/
def commit_loop (remote : RemoteCall → Except PyStr Unit) :
    List ContentItem → List RemoteCall × List (PyStr × PyStr)
  | [] => ([], [])
  | it :: rest =>
    let one := commit_one remote it
    let more := commit_loop remote rest
    (one.1 ++ more.1, one.2 ++ more.2)

/-- The whole Step 5 write-back handler, src/app.py lines 575-625: select
the approved items, run the loop over exactly those, and return the
(unmutated) registry together with the trace of issued PUT requests and
the collected failure list.  The loop body never assigns any item field,
so the registry component is returned unchanged. -/
def commit (remote : RemoteCall → Except PyStr Unit) (items : List ContentItem) :
    List ContentItem × List RemoteCall × List (PyStr × PyStr) :=
  (items, commit_loop remote (select_approved items))

/-- A record of the page listing endpoint: the only field the code reads
from it is url (src/app.py line 106). -/
structure PageStub where
  url : PyStr
deriving DecidableEq

/-- A full page object as returned by the per-page detail fetch; body is
None or absent for pages without a body (the code reads it with
p.get("body", "") or ""). -/
structure PageRec where
  page_id : Int
  url : PyStr
  title : PyStr
  body : Option PyStr
deriving DecidableEq

/-- An assignment record from the assignments listing endpoint. -/
structure AsgRec where
  id : Int
  name : PyStr
  description : Option PyStr
deriving DecidableEq

/-- A discussion topic record from the discussion_topics listing
endpoint. -/
structure DiscRec where
  id : Int
  title : PyStr
  message : Option PyStr
deriving DecidableEq

/-- The inner for loop of get_pages over one listing response, src/app.py
lines 104-112: one detail fetch per record in order, appending the full
page to items, and returning early (flag true) as soon as the cap test
passes — the remaining records of the listing page are then neither
detail-fetched nor included.  The detail fetch is embedded as a function
from the page url to the decoded detail response or the message of its
raise_for_status failure; the second component of the result is the trace
of detail endpoints fetched so far. -/
def get_pages_records (detail : PyStr → Except PyStr PageRec) (max_items : Option Nat) :
    List PageStub → List PageRec → List PyStr →
    Except PyStr (Bool × List PageRec) × List PyStr
  | [], items, calls => (Except.ok (false, items), calls)
  | stub :: rest, items, calls =>
    let calls2 := calls ++ [stub.url]
    match detail stub.url with
    | Except.error e => (Except.error e, calls2)
    | Except.ok full_page =>
      let items2 := items ++ [full_page]
      if capHit max_items items2.length then (Except.ok (true, items2), calls2)
      else get_pages_records detail max_items rest items2 calls2

/-- The while loop of get_pages over the Link-header page chain, src/app.py
lines 101-121: each listing response either fails raise_for_status
(aborting the whole collection) or contributes its records through
get_pages_records. -/
def get_pages_go (detail : PyStr → Except PyStr PageRec) (max_items : Option Nat) :
    List (Except PyStr (List PageStub)) → List PageRec → List PyStr →
    Except PyStr (List PageRec) × List PyStr
  | [], items, calls => (Except.ok items, calls)
  | resp :: rest, items, calls =>
    match resp with
    | Except.error e => (Except.error e, calls)
    | Except.ok page =>
      match get_pages_records detail max_items page items calls with
      | (Except.error e, calls2) => (Except.error e, calls2)
      | (Except.ok (true, items2), calls2) => (Except.ok items2, calls2)
      | (Except.ok (false, items2), calls2) => get_pages_go detail max_items rest items2 calls2

/-- get_pages, src/app.py lines 94-123.  The base url, token and course id
only select the remote endpoints, so they are abstracted into the sequence
of listing responses and the detail-fetch function. -/
def get_pages (detail : PyStr → Except PyStr PageRec) (max_items : Option Nat)
    (responses : List (Except PyStr (List PageStub))) :
    Except PyStr (List PageRec) × List PyStr :=
  get_pages_go detail max_items responses [] []

/-- The shared while loop of get_assignments (src/app.py lines 132-148) and
get_discussions (lines 157-173), whose bodies are textually identical apart
from the endpoint: each listing response is merged in full, and when the
cap test then passes the accumulated items are cut to max_items with a
slice. -/
def get_listing_go {α : Type} (max_items : Option Nat) :
    List (Except PyStr (List α)) → List α → Except PyStr (List α)
  | [], items => Except.ok items
  | resp :: rest, items =>
    match resp with
    | Except.error e => Except.error e
    | Except.ok data =>
      let items2 := items ++ data
      if capHit max_items items2.length then
        Except.ok (items2.take (match max_items with | some m => m | none => items2.length))
      else get_listing_go max_items rest items2

/-- get_assignments, src/app.py lines 126-148. -/
def get_assignments (max_items : Option Nat)
    (responses : List (Except PyStr (List AsgRec))) : Except PyStr (List AsgRec) :=
  get_listing_go max_items responses []

/-- get_discussions, src/app.py lines 151-173. -/
def get_discussions (max_items : Option Nat)
    (responses : List (Except PyStr (List DiscRec))) : Except PyStr (List DiscRec) :=
  get_listing_go max_items responses []

/-- Conversion of a harvested page into a registry item, src/app.py lines
340-352. -/
def page_to_item (p : PageRec) : ContentItem :=
  { type := "page".data, id := p.page_id, canvas_id := p.page_id,
    url_slug := some p.url, title := p.title,
    original_html := p.body.getD [], rewritten_html := [],
    rewrite_error := none, approved := false }

/-- Conversion of a harvested assignment into a registry item, src/app.py
lines 354-365. -/
def assignment_to_item (a : AsgRec) : ContentItem :=
  { type := "assignment".data, id := a.id, canvas_id := a.id,
    url_slug := none, title := a.name,
    original_html := a.description.getD [], rewritten_html := [],
    rewrite_error := none, approved := false }

/-- Conversion of a harvested discussion into a registry item, src/app.py
lines 367-378. -/
def discussion_to_item (d : DiscRec) : ContentItem :=
  { type := "discussion".data, id := d.id, canvas_id := d.id,
    url_slug := none, title := d.title,
    original_html := d.message.getD [], rewritten_html := [],
    rewrite_error := none, approved := false }

/-- The registry contents built by a fully successful harvest, src/app.py
lines 338-378: pages first, then assignments, then discussions. -/
def build_content_items (ps : List PageRec) (asgs : List AsgRec) (ds : List DiscRec) :
    List ContentItem :=
  ps.map page_to_item ++ asgs.map assignment_to_item ++ ds.map discussion_to_item

/-- The Fetch course content handler, src/app.py lines 324-387: the course
check and the three harvests run inside one try block with no max_items
cap, st.session_state["content_items"] is replaced only when everything
succeeded, and any exception leaves the previous registry untouched and
surfaces the error message.  The result is the registry after the handler
together with the surfaced error, if any. -/
def fetch_course_content (course : Except PyStr Unit)
    (detail : PyStr → Except PyStr PageRec)
    (page_responses : List (Except PyStr (List PageStub)))
    (assignment_responses : List (Except PyStr (List AsgRec)))
    (discussion_responses : List (Except PyStr (List DiscRec)))
    (prev : List ContentItem) : List ContentItem × Option PyStr :=
  match course with
  | Except.error e => (prev, some e)
  | Except.ok _ =>
    match (get_pages detail none page_responses).1 with
    | Except.error e => (prev, some e)
    | Except.ok pages =>
      match get_assignments none assignment_responses with
      | Except.error e => (prev, some e)
      | Except.ok assignments =>
        match get_discussions none discussion_responses with
        | Except.error e => (prev, some e)
        | Except.ok discussions =>
          (build_content_items pages assignments discussions, none)

/-
Concrete inputs for the closed witnesses and counterexamples below.
-/

/-- A harvested page item before any rewrite. -/
def itemPageA : ContentItem :=
  { type := "page".data, id := 1, canvas_id := 1, url_slug := some "intro-page".data,
    title := "Intro".data, original_html := "<p>a</p>".data, rewritten_html := [],
    rewrite_error := none, approved := false }

/-- A harvested assignment item before any rewrite. -/
def itemAsgB : ContentItem :=
  { type := "assignment".data, id := 2, canvas_id := 2, url_slug := none,
    title := "Essay".data, original_html := "<p>b</p>".data, rewritten_html := [],
    rewrite_error := none, approved := false }

/-- A concrete model context for the rewrite witnesses. -/
def mcW : PyStr := "model context".data

/-- Concrete global instructions for the rewrite witnesses. -/
def giW : PyStr := "use headings".data

/-- A transformation call that fails exactly on the prompt compiled for
itemPageA and succeeds on every other prompt. -/
def apiFailA : PyStr → Except PyStr PyStr := fun p =>
  if p = build_rewrite_prompt itemPageA mcW giW then Except.error "boom".data
  else Except.ok " okA ".data

/-- A transformation call that always succeeds. -/
def apiOk : PyStr → Except PyStr PyStr := fun _ => Except.ok " fresh ".data

/-- An item carrying a stale failure message from an earlier rewrite
attempt. -/
def itemStale : ContentItem :=
  { type := "page".data, id := 3, canvas_id := 3, url_slug := some "stale".data,
    title := "Stale".data, original_html := "<p>s</p>".data, rewritten_html := [],
    rewrite_error := some "old failure".data, approved := false }

/-- An approved, rewritten page item that lacks the url_slug key. -/
def itemBadPage : ContentItem :=
  { type := "page".data, id := 7, canvas_id := 7, url_slug := none,
    title := "Orphan".data, original_html := "<p>o</p>".data,
    rewritten_html := "<p>new</p>".data, rewrite_error := none, approved := true }

/-- An approved, rewritten assignment item. -/
def itemGoodAsg : ContentItem :=
  { type := "assignment".data, id := 8, canvas_id := 8, url_slug := none,
    title := "Asg".data, original_html := "<p>a</p>".data,
    rewritten_html := "<p>na</p>".data, rewrite_error := none, approved := true }

/-- An approved, rewritten page item with its slug present. -/
def itemGoodPage : ContentItem :=
  { type := "page".data, id := 9, canvas_id := 9, url_slug := some "good-page".data,
    title := "Good".data, original_html := "<p>g</p>".data,
    rewritten_html := "<p>ng</p>".data, rewrite_error := none, approved := true }

/-- A rewritten but unapproved item. -/
def itemUnapproved : ContentItem :=
  { type := "page".data, id := 10, canvas_id := 10, url_slug := some "un".data,
    title := "Un".data, original_html := "<p>u</p>".data,
    rewritten_html := "<p>nu</p>".data, rewrite_error := none, approved := false }

/-- An approved item whose rewritten_html is empty. -/
def itemEmptyApproved : ContentItem :=
  { type := "assignment".data, id := 11, canvas_id := 11, url_slug := none,
    title := "EmptyApproved".data, original_html := "<p>e</p>".data,
    rewritten_html := [], rewrite_error := none, approved := true }

/-- A remote update endpoint that accepts every PUT. -/
def remoteOk : RemoteCall → Except PyStr Unit := fun _ => Except.ok ()

/-- A remote update endpoint that rejects assignment updates and accepts
everything else. -/
def remoteFailAsg : RemoteCall → Except PyStr Unit := fun c =>
  match c with
  | RemoteCall.assignment _ _ => Except.error "403 Forbidden".data
  | _ => Except.ok ()

/-- First record of the counterexample listing page. -/
def stubOne : PageStub := { url := "page-one".data }

/-- Second record of the counterexample listing page. -/
def stubTwo : PageStub := { url := "page-two".data }

/-- A detail fetch that succeeds on every page url. -/
def detailOk : PyStr → Except PyStr PageRec := fun u => Except.ok ⟨1, u, u, none⟩

/-- A corpus of 12001 characters whose final character is whitespace. -/
def cexCorpus : PyStr := List.replicate 12000 'x' ++ [' ']

/-- An item with a non-empty rewritten_html, for the approval witnesses. -/
def itemRw : ContentItem :=
  { type := "page".data, id := 12, canvas_id := 12, url_slug := some "rw".data,
    title := "Rw".data, original_html := "<p>r</p>".data,
    rewritten_html := "<p>nr</p>".data, rewrite_error := none, approved := false }

/-- An item with an empty rewritten_html, for the approval witnesses. -/
def itemNoRw : ContentItem :=
  { type := "discussion".data, id := 13, canvas_id := 13, url_slug := none,
    title := "NoRw".data, original_html := "<p>n</p>".data,
    rewritten_html := [], rewrite_error := none, approved := false }

/-
Helper lemmas shared by several claims.
-/

/-- The PUT trace of the write-back loop is the concatenation of the
per-item traces, in item order. -/
theorem commit_loop_calls (remote : RemoteCall → Except PyStr Unit)
    (l : List ContentItem) :
    (commit_loop remote l).1 = l.flatMap fun it => (commit_one remote it).1 := by
  induction l with
  | nil => rfl
  | cons it rest ih => simp [commit_loop, ih]

/-- The failure list of the write-back loop is the concatenation of the
per-item failure entries, in item order. -/
theorem commit_loop_errors (remote : RemoteCall → Except PyStr Unit)
    (l : List ContentItem) :
    (commit_loop remote l).2 = l.flatMap fun it => (commit_one remote it).2 := by
  induction l with
  | nil => rfl
  | cons it rest ih => simp [commit_loop, ih]

/-- Claim C2: the write-back commit selects exactly the items whose
approved flag is true and whose rewritten_html is non-empty; every item
failing this predicate is outside the selection, and both the trace of
issued PUT requests and the returned failure list are drawn exclusively
from the selected items, so a skipped item is never sent to the remote
service and is never reported as an error. -/
theorem writeback_selection_exact (remote : RemoteCall → Except PyStr Unit)
    (items : List ContentItem) (it : ContentItem) :
    (it ∈ select_approved items ↔
      it ∈ items ∧ it.approved = true ∧ it.rewritten_html ≠ [])
  ∧ (commit remote items).2.1 =
      (select_approved items).flatMap (fun x => (commit_one remote x).1)
  ∧ (commit remote items).2.2 =
      (select_approved items).flatMap (fun x => (commit_one remote x).2) := by
  refine ⟨?_, commit_loop_calls remote _, commit_loop_errors remote _⟩
  simp [select_approved, List.mem_filter, and_assoc]

/-- Claim C2 witness: an item with approved true but empty rewritten_html
is not selected, and committing a registry containing only such items and
unapproved items issues no PUT request and reports no failure. -/
theorem writeback_selection_exact_witness :
    itemEmptyApproved ∉ select_approved [itemEmptyApproved, itemUnapproved]
  ∧ (commit remoteOk [itemEmptyApproved, itemUnapproved]).2.1 = []
  ∧ (commit remoteOk [itemEmptyApproved, itemUnapproved]).2.2 = [] := by
  have h := writeback_selection_exact remoteOk [itemEmptyApproved, itemUnapproved]
    itemEmptyApproved
  refine ⟨fun hmem => ?_, ?_, ?_⟩
  · exact (h.1.mp hmem).2.2 rfl
  · rw [h.2.1]; decide
  · rw [h.2.2]; decide

/-- Claim C3: during commit, a selected item whose PUT fails has the pair
(title, message) recorded, its request is still issued, every selected
item whose dispatch produces a request has that request issued regardless
of other failures, the returned failure list is the full concatenation of
the per-item failures, commit leaves the registry unchanged — so the
failed item is still selected afterwards — and a retry of commit on the
returned registry attempts the failed item again. -/
theorem writeback_continue_on_error (remote : RemoteCall → Except PyStr Unit)
    (items : List ContentItem) (j : ContentItem) (c : RemoteCall) (e : PyStr)
    (hj : j ∈ select_approved items)
    (hcall : item_update_call j = Except.ok (some c))
    (hfail : remote c = Except.error e) :
    ((j.title, e) ∈ (commit remote items).2.2)
  ∧ (c ∈ (commit remote items).2.1)
  ∧ (∀ it, it ∈ select_approved items → ∀ c2,
      item_update_call it = Except.ok (some c2) → c2 ∈ (commit remote items).2.1)
  ∧ ((commit remote items).2.2 =
      (select_approved items).flatMap fun x => (commit_one remote x).2)
  ∧ ((commit remote items).1 = items)
  ∧ (j ∈ select_approved (commit remote items).1)
  ∧ ((j.title, e) ∈ (commit remote ((commit remote items).1)).2.2)
  ∧ (c ∈ (commit remote ((commit remote items).1)).2.1) := by
  have hone : commit_one remote j = ([c], [(j.title, e)]) := by
    simp [commit_one, hcall, hfail]
  have herr : (j.title, e) ∈ (commit remote items).2.2 := by
    rw [show (commit remote items).2.2 = _ from commit_loop_errors remote _]
    exact List.mem_flatMap.mpr ⟨j, hj, by simp [hone]⟩
  have hc : c ∈ (commit remote items).2.1 := by
    rw [show (commit remote items).2.1 = _ from commit_loop_calls remote _]
    exact List.mem_flatMap.mpr ⟨j, hj, by simp [hone]⟩
  have hall : ∀ it, it ∈ select_approved items → ∀ c2,
      item_update_call it = Except.ok (some c2) → c2 ∈ (commit remote items).2.1 := by
    intro it hit c2 hc2
    rw [show (commit remote items).2.1 = _ from commit_loop_calls remote _]
    refine List.mem_flatMap.mpr ⟨it, hit, ?_⟩
    cases hr : remote c2 <;> simp [commit_one, hc2, hr]
  exact ⟨herr, hc, hall, commit_loop_errors remote _, rfl, hj, herr, hc⟩

/-- Claim C3 witness: with a remote that rejects assignment updates, the
assignment item of a two-item approved registry gets a recorded failure,
its PUT is still issued, the page PUT is issued as well, and the registry
is returned unchanged. -/
theorem writeback_continue_on_error_witness :
    (itemGoodAsg.title, "403 Forbidden".data) ∈
      (commit remoteFailAsg [itemGoodPage, itemGoodAsg]).2.2
  ∧ RemoteCall.assignment 8 "<p>na</p>".data ∈
      (commit remoteFailAsg [itemGoodPage, itemGoodAsg]).2.1
  ∧ (commit remoteFailAsg [itemGoodPage, itemGoodAsg]).1 = [itemGoodPage, itemGoodAsg] := by
  have h := writeback_continue_on_error remoteFailAsg [itemGoodPage, itemGoodAsg]
    itemGoodAsg (RemoteCall.assignment 8 "<p>na</p>".data) "403 Forbidden".data
    (by decide) rfl rfl
  exact ⟨h.1, h.2.1, h.2.2.2.2.1⟩

/-- Claim C6 counterexample: a selected page item lacking its url_slug key
does not abort the write-back as a fatal contract violation — the KeyError
raised by the dispatch is caught by the per-item handler, recorded in the
returned failure list as an ordinary (title, message) entry, and the batch
continues to the next selected item, whose PUT is issued. -/
theorem missing_slug_recorded_cex :
    (commit remoteOk [itemBadPage, itemGoodAsg]).2.2 =
      [("Orphan".data, "\x27url_slug\x27".data)]
  ∧ (commit remoteOk [itemBadPage, itemGoodAsg]).2.1 =
      [RemoteCall.assignment 8 "<p>na</p>".data] := by
  decide

/-- Claim C6 amended: a selected Page item lacking its url_slug key does
not fail fatally; the lookup error is caught by the per-item handler and
recorded in the returned failure list as the entry
(title, quoted key name), the loop completes, and the registry is returned
unchanged. -/
theorem missing_slug_recorded (remote : RemoteCall → Except PyStr Unit)
    (items : List ContentItem) (it : ContentItem)
    (hsel : it ∈ select_approved items)
    (htype : it.type = "page".data)
    (hslug : it.url_slug = none) :
    ((it.title, "\x27url_slug\x27".data) ∈ (commit remote items).2.2)
  ∧ ((commit remote items).1 = items) := by
  have hone : commit_one remote it = ([], [(it.title, "\x27url_slug\x27".data)]) := by
    simp [commit_one, item_update_call, htype, hslug]
  refine ⟨?_, rfl⟩
  rw [show (commit remote items).2.2 = _ from commit_loop_errors remote _]
  exact List.mem_flatMap.mpr ⟨it, hsel, by simp [hone]⟩

/-- Claim C6 amended witness. -/
theorem missing_slug_recorded_witness :
    (itemBadPage.title, "\x27url_slug\x27".data) ∈
      (commit remoteOk [itemBadPage, itemGoodAsg]).2.2
  ∧ (commit remoteOk [itemBadPage, itemGoodAsg]).1 = [itemBadPage, itemGoodAsg] :=
  missing_slug_recorded remoteOk [itemBadPage, itemGoodAsg] itemBadPage
    (by decide) rfl rfl

/-- Claim C9: approveAllRewritten is idempotent, and each call maps the
item at every position to itself when its rewritten_html is empty and to
the same item with approved set to true otherwise. -/
theorem approve_all_rewritten_idempotent (items : List ContentItem) :
    approveAllRewritten (approveAllRewritten items) = approveAllRewritten items
  ∧ ∀ i : Nat, ∀ item : ContentItem, items[i]? = some item →
      (approveAllRewritten items)[i]? =
        some (if item.rewritten_html.isEmpty then item
              else { item with approved := true }) := by
  constructor
  · unfold approveAllRewritten
    rw [List.map_map]
    congr 1
    funext item
    by_cases h : item.rewritten_html.isEmpty <;> simp [Function.comp, h]
  · intro i item h
    simp [approveAllRewritten, List.getElem?_map, h]

/-- Claim C9 witness: on a registry with one rewritten and one
unrewritten item, a second bulk approval changes nothing, and the first
call approves exactly the rewritten item. -/
theorem approve_all_rewritten_idempotent_witness :
    approveAllRewritten (approveAllRewritten [itemRw, itemNoRw]) =
      approveAllRewritten [itemRw, itemNoRw]
  ∧ (approveAllRewritten [itemRw, itemNoRw])[0]? = some { itemRw with approved := true }
  ∧ (approveAllRewritten [itemRw, itemNoRw])[1]? = some itemNoRw := by
  have h := approve_all_rewritten_idempotent [itemRw, itemNoRw]
  refine ⟨h.1, ?_, ?_⟩
  · rw [h.2 0 itemRw rfl]; decide
  · rw [h.2 1 itemNoRw rfl]; decide

/-- A rewrite-loop iteration on an item with non-empty original_html and a
successful transform call assigns the stripped response to rewritten_html
and touches nothing else (in particular rewrite_error is untouched). -/
theorem rewrite_step_ok (api : PyStr → Except PyStr PyStr)
    (model_context global_instructions : PyStr) (item : ContentItem) (out : PyStr)
    (hnon : item.original_html ≠ [])
    (hok : api (build_rewrite_prompt item model_context global_instructions) = Except.ok out) :
    rewrite_step api model_context global_instructions item =
      { item with rewritten_html := pyStrip out } := by
  simp [rewrite_step, rewrite_item, hok, hnon]

/-- A rewrite-loop iteration on an item with non-empty original_html and a
failing transform call assigns the failure message to rewrite_error and
touches nothing else (in particular rewritten_html is untouched). -/
theorem rewrite_step_error (api : PyStr → Except PyStr PyStr)
    (model_context global_instructions : PyStr) (item : ContentItem) (e : PyStr)
    (hnon : item.original_html ≠ [])
    (herr : api (build_rewrite_prompt item model_context global_instructions) = Except.error e) :
    rewrite_step api model_context global_instructions item =
      { item with rewrite_error := some e } := by
  simp [rewrite_step, rewrite_item, herr, hnon]

/-- A rewrite-loop iteration on an item with empty original_html issues no
transform call and just sets rewritten_html to the empty string. -/
theorem rewrite_step_empty (api : PyStr → Except PyStr PyStr)
    (model_context global_instructions : PyStr) (item : ContentItem)
    (hemp : item.original_html = []) :
    rewrite_step api model_context global_instructions item =
      { item with rewritten_html := [] } := by
  simp [rewrite_step, hemp]

/-- Claim C1: when the transform call fails on item k of the registry and
succeeds on every other item with content, the rewrite-all loop still
produces one outcome per item: item k gets rewrite_error set to the
failure message with its rewritten_html (and every other field) unchanged,
every other item with non-empty original_html acquires the stripped
successful result, and every other item with empty original_html gets the
empty rewritten_html — no per-item failure aborts the batch. -/
theorem rewrite_batch_isolates_failure (api : PyStr → Except PyStr PyStr)
    (model_context global_instructions : PyStr) (items : List ContentItem)
    (k : Nat) (itk : ContentItem) (e : PyStr)
    (hk : items[k]? = some itk)
    (hnon : itk.original_html ≠ [])
    (hfail : api (build_rewrite_prompt itk model_context global_instructions) =
      Except.error e)
    (hsucc : ∀ i : Nat, ∀ iti : ContentItem, items[i]? = some iti → i ≠ k →
      iti.original_html ≠ [] →
      ∃ out, api (build_rewrite_prompt iti model_context global_instructions) =
        Except.ok out) :
    (runAll api model_context global_instructions items).length = items.length
  ∧ (runAll api model_context global_instructions items)[k]? =
      some { itk with rewrite_error := some e }
  ∧ ∀ i : Nat, ∀ iti : ContentItem, items[i]? = some iti → i ≠ k →
      (iti.original_html ≠ [] →
        ∃ out, api (build_rewrite_prompt iti model_context global_instructions) =
            Except.ok out
          ∧ (runAll api model_context global_instructions items)[i]? =
              some { iti with rewritten_html := pyStrip out })
    ∧ (iti.original_html = [] →
        (runAll api model_context global_instructions items)[i]? =
          some { iti with rewritten_html := [] }) := by
  refine ⟨List.length_map _ _, ?_, ?_⟩
  · rw [runAll, List.getElem?_map, hk, Option.map_some']
    rw [rewrite_step_error api model_context global_instructions itk e hnon hfail]
  · intro i iti hi hik
    constructor
    · intro hin
      obtain ⟨out, hout⟩ := hsucc i iti hi hik hin
      refine ⟨out, hout, ?_⟩
      rw [runAll, List.getElem?_map, hi, Option.map_some']
      rw [rewrite_step_ok api model_context global_instructions iti out hin hout]
    · intro hemp
      rw [runAll, List.getElem?_map, hi, Option.map_some']
      rw [rewrite_step_empty api model_context global_instructions iti hemp]

/-- Claim C1 witness: a two-item registry whose first item fails and whose
second succeeds still yields two outcomes, with the failure isolated on
the first item. -/
theorem rewrite_batch_isolates_failure_witness :
    (runAll apiFailA mcW giW [itemPageA, itemAsgB]).length = 2
  ∧ (runAll apiFailA mcW giW [itemPageA, itemAsgB])[0]? =
      some { itemPageA with rewrite_error := some "boom".data }
  ∧ (runAll apiFailA mcW giW [itemPageA, itemAsgB])[1]? =
      some { itemAsgB with rewritten_html := pyStrip " okA ".data } := by
  have hfail : apiFailA (build_rewrite_prompt itemPageA mcW giW) =
      Except.error "boom".data := by
    unfold apiFailA
    rw [if_pos rfl]
  have hokB : apiFailA (build_rewrite_prompt itemAsgB mcW giW) =
      Except.ok " okA ".data := by
    unfold apiFailA
    rw [if_neg (by decide)]
  have hsucc : ∀ i : Nat, ∀ iti : ContentItem,
      ([itemPageA, itemAsgB])[i]? = some iti → i ≠ 0 →
      iti.original_html ≠ [] →
      ∃ out, apiFailA (build_rewrite_prompt iti mcW giW) = Except.ok out := by
    intro i iti hi hik hin
    match i with
    | 0 => exact absurd rfl hik
    | 1 =>
      have hb : iti = itemAsgB := by
        simp only [List.getElem?_cons_succ, List.getElem?_cons_zero] at hi
        exact (Option.some.inj hi).symm
      exact ⟨" okA ".data, hb ▸ hokB⟩
    | Nat.succ (Nat.succ n) =>
      simp only [List.getElem?_cons_succ, List.getElem?_nil] at hi
      exact Option.noConfusion hi
  have h := rewrite_batch_isolates_failure apiFailA mcW giW [itemPageA, itemAsgB]
    0 itemPageA "boom".data rfl (by decide) hfail hsucc
  refine ⟨h.1, h.2.1, ?_⟩
  obtain ⟨out, hout, hres⟩ := (h.2.2 1 itemAsgB rfl (by decide)).1 (by decide)
  have : out = " okA ".data := Except.ok.inj (hout.symm.trans hokB)
  rw [hres, this]

/-- Claim C4 counterexample: an item carrying a stale rewrite_error whose
transform call succeeds gets its rewritten_html updated to the stripped
result, yet its rewrite_error is NOT cleared — the prior failure message
survives the successful rewrite, contradicting the claim that success
clears rewriteError. -/
theorem rewrite_success_keeps_stale_error_cex :
    (runAll apiOk mcW giW [itemStale]).map ContentItem.rewritten_html = ["fresh".data]
  ∧ (runAll apiOk mcW giW [itemStale]).map ContentItem.rewrite_error =
      [some "old failure".data]
  ∧ some "old failure".data ≠ (none : Option PyStr) := by
  decide

/-- Claim C4 amended: for every item with non-empty original_html whose
transform call succeeds, the rewrite-all loop sets the item's
rewritten_html to the whitespace-stripped transform result but leaves
rewrite_error exactly as it was — a prior failure message survives a
subsequent successful rewrite of the same item. -/
theorem rewrite_success_sets_html_keeps_error (api : PyStr → Except PyStr PyStr)
    (model_context global_instructions : PyStr) (items : List ContentItem)
    (i : Nat) (item : ContentItem) (out : PyStr)
    (hi : items[i]? = some item)
    (hnon : item.original_html ≠ [])
    (hok : api (build_rewrite_prompt item model_context global_instructions) =
      Except.ok out) :
    (runAll api model_context global_instructions items)[i]? =
      some { item with rewritten_html := pyStrip out }
  ∧ ∀ r : ContentItem,
      (runAll api model_context global_instructions items)[i]? = some r →
      r.rewritten_html = pyStrip out ∧ r.rewrite_error = item.rewrite_error := by
  have hmain : (runAll api model_context global_instructions items)[i]? =
      some { item with rewritten_html := pyStrip out } := by
    rw [runAll, List.getElem?_map, hi, Option.map_some']
    rw [rewrite_step_ok api model_context global_instructions item out hnon hok]
  refine ⟨hmain, ?_⟩
  intro r hr
  have : r = { item with rewritten_html := pyStrip out } :=
    Option.some.inj ((hmain.symm.trans hr).symm)
  rw [this]
  exact ⟨rfl, rfl⟩

/-- Claim C4 amended witness: the stale-error item after a successful
rewrite has the fresh stripped html and the untouched old failure
message. -/
theorem rewrite_success_sets_html_keeps_error_witness :
    (runAll apiOk mcW giW [itemStale])[0]? =
      some { itemStale with rewritten_html := pyStrip " fresh ".data } := by
  exact (rewrite_success_sets_html_keeps_error apiOk mcW giW [itemStale] 0 itemStale
    " fresh ".data rfl (by decide) rfl).1

/-- dropWhile with the whitespace predicate does not consume a list whose
head is the letter x. -/
theorem dropWhile_ws_x_headed (n : Nat) (l : List Char) :
    List.dropWhile Char.isWhitespace (List.replicate (n + 1) 'x' ++ l) =
      List.replicate (n + 1) 'x' ++ l := by
  rw [List.replicate_succ, List.cons_append, List.dropWhile_cons]
  simp [show Char.isWhitespace 'x' = false from rfl]

/-- Stripping the counterexample corpus removes exactly its trailing
space. -/
theorem pyStrip_cexCorpus : pyStrip cexCorpus = List.replicate 12000 'x' := by
  have h12 : (12000 : Nat) = 11999 + 1 := rfl
  have hx : List.dropWhile Char.isWhitespace (List.replicate 12000 'x') =
      List.replicate 12000 'x' := by
    rw [h12]
    have h := dropWhile_ws_x_headed 11999 []
    rwa [List.append_nil] at h
  have h1 : List.dropWhile Char.isWhitespace cexCorpus = cexCorpus := by
    unfold cexCorpus
    rw [h12]
    exact dropWhile_ws_x_headed 11999 [' ']
  have h2 : cexCorpus.reverse = ' ' :: List.replicate 12000 'x' := by
    unfold cexCorpus
    rw [List.reverse_append, List.reverse_replicate]
    rfl
  have h3 : List.dropWhile Char.isWhitespace (' ' :: List.replicate 12000 'x') =
      List.replicate 12000 'x' := by
    rw [List.dropWhile_cons]
    rw [if_pos (show Char.isWhitespace ' ' = true from rfl)]
    exact hx
  unfold pyStrip
  rw [h1, h2, h3, List.reverse_replicate]

/-- Claim C8 counterexample: the 12001-character corpus consisting of
12000 letters followed by one space exceeds the 12000-character budget,
yet the compiler appends no truncation marker: the corpus is stripped
before the length test, so the stripped 12000-character context is
embedded unchanged, contradicting the claim that a marker is appended
exactly when the corpus exceeds the budget. -/
theorem corpus_truncation_cex :
    cexCorpus.length = 12001
  ∧ max_model_chars < cexCorpus.length
  ∧ truncate_model_context cexCorpus = List.replicate 12000 'x'
  ∧ (truncate_model_context cexCorpus).length = 12000
  ∧ truncate_model_context cexCorpus ≠
      cexCorpus.take max_model_chars ++ truncation_marker := by
  have hlen : cexCorpus.length = 12001 := by
    unfold cexCorpus
    rw [List.length_append, List.length_replicate]
    decide
  have htr : truncate_model_context cexCorpus = List.replicate 12000 'x' := by
    unfold truncate_model_context
    rw [pyStrip_cexCorpus]
    rw [if_neg (by rw [List.length_replicate]; norm_num [max_model_chars])]
  have hm : truncation_marker.length = 39 := by decide
  refine ⟨hlen, by rw [hlen]; norm_num [max_model_chars],
    htr, by rw [htr, List.length_replicate], ?_⟩
  intro heq
  rw [htr] at heq
  have hL := congrArg List.length heq
  rw [List.length_replicate, List.length_append, List.length_take, hlen, hm,
    show max_model_chars = 12000 from rfl] at hL
  omega

/-- Claim C8 amended: build_rewrite_prompt first strips the corpus, then
truncates the stripped corpus to the 12000-character budget and appends
the truncation marker exactly when the stripped corpus exceeds that
budget, before the (possibly truncated) corpus is concatenated into the
prompt payload; a stripped corpus within the budget is embedded as-is
with no marker, and the embedded corpus never exceeds the budget plus the
marker length. -/
theorem corpus_truncation_after_strip (item : ContentItem)
    (model_context global_instructions : PyStr) :
    max_model_chars = 12000
  ∧ truncate_model_context model_context =
      (if max_model_chars < (pyStrip model_context).length
       then (pyStrip model_context).take max_model_chars ++ truncation_marker
       else pyStrip model_context)
  ∧ (truncate_model_context model_context).length ≤
      max_model_chars + truncation_marker.length
  ∧ (max_model_chars < (truncate_model_context model_context).length ↔
      max_model_chars < (pyStrip model_context).length)
  ∧ build_rewrite_prompt item model_context global_instructions =
      pyStrip (prompt_before_corpus global_instructions
        ++ truncate_model_context model_context ++ prompt_after_corpus item) := by
  have hm : truncation_marker.length = 39 := by decide
  refine ⟨rfl, rfl, ?_, ?_, rfl⟩
  · unfold truncate_model_context max_model_chars
    by_cases h : 12000 < (pyStrip model_context).length
    · rw [if_pos h]
      simp only [List.length_append, List.length_take, hm]
      omega
    · rw [if_neg h]
      omega
  · unfold truncate_model_context max_model_chars
    by_cases h : 12000 < (pyStrip model_context).length
    · rw [if_pos h]
      simp only [List.length_append, List.length_take, hm]
      omega
    · rw [if_neg h]

/-- Claim C8 amended witness: a small corpus with surrounding whitespace
is embedded stripped with no marker, and the prompt is the stripped
concatenation around the truncated corpus. -/
theorem corpus_truncation_after_strip_witness :
    truncate_model_context "  ab ".data = "ab".data
  ∧ build_rewrite_prompt itemPageA "  ab ".data giW =
      pyStrip (prompt_before_corpus giW ++ truncate_model_context "  ab ".data
        ++ prompt_after_corpus itemPageA) := by
  have h := corpus_truncation_after_strip itemPageA "  ab ".data giW
  refine ⟨?_, h.2.2.2.2⟩
  rw [h.2.1]
  decide

/-- Characterization of the inner get_pages loop when every detail fetch
succeeds: it consumes records until m items are accumulated, issuing
exactly one detail fetch per consumed record, and the early-return flag is
set exactly when the cap was reached within this listing page. -/
theorem get_pages_records_ok (f : PyStr → PageRec) (m : Nat) (rs : List PageStub) :
    ∀ (acc : List PageRec) (calls : List PyStr), acc.length < m →
    get_pages_records (fun u => Except.ok (f u)) (some m) rs acc calls =
      (Except.ok (decide (m ≤ acc.length + rs.length),
        acc ++ (rs.take (m - acc.length)).map fun s => f s.url),
       calls ++ (rs.take (m - acc.length)).map PageStub.url) := by
  induction rs with
  | nil =>
    intro acc calls hacc
    have hd : decide (m ≤ acc.length + ([] : List PageStub).length) = false :=
      decide_eq_false (by simp only [List.length_nil, Nat.add_zero]; omega)
    simp [get_pages_records, hd]
    omega
  | cons r rest ih =>
    intro acc calls hacc
    by_cases hle : m ≤ acc.length + 1
    · have hcap : capHit (some m) (acc.length + 1) = true := by
        simp only [capHit, Bool.and_eq_true, bne_iff_ne, ne_eq, decide_eq_true_eq]
        omega
      have hd : decide (m ≤ acc.length + (r :: rest).length) = true :=
        decide_eq_true (by simp only [List.length_cons]; omega)
      have hm1 : m - acc.length = 0 + 1 := by omega
      simp only [get_pages_records, List.length_append, List.length_cons,
        List.length_nil, Nat.add_zero, hcap, if_true, hm1, List.take_succ_cons,
        List.take_zero, List.map_cons, List.map_nil, hd, List.length_cons]
      simp
      omega
    · have hcap : capHit (some m) (acc.length + 1) = false := by
        rw [Bool.eq_false_iff]
        simp only [ne_eq, capHit, Bool.and_eq_true, bne_iff_ne, decide_eq_true_eq]
        omega
      have hrec := ih (acc ++ [f r.url]) (calls ++ [r.url])
        (by simp only [List.length_append, List.length_cons, List.length_nil]; omega)
      have ht : (r :: rest).take (m - acc.length) =
          r :: rest.take (m - (acc.length + 1)) := by
        rw [show m - acc.length = (m - (acc.length + 1)) + 1 from by omega,
          List.take_succ_cons]
      simp only [get_pages_records, List.length_append, List.length_cons,
        List.length_nil, Nat.add_zero, hcap, Bool.false_eq_true, if_false]
      rw [hrec]
      simp only [List.length_append, List.length_cons, List.length_nil, Nat.zero_add,
        Nat.add_zero]
      rw [show acc.length + 1 + rest.length = acc.length + (rest.length + 1) from by omega]
      rw [ht]
      simp [List.append_assoc]

/-- Characterization of the get_pages page chain when every request
succeeds: with a positive cap m the collector returns the first m enriched
records of the concatenated listing pages (all of them when fewer exist)
and issues exactly one detail fetch per returned record. -/
theorem get_pages_go_ok (f : PyStr → PageRec) (m : Nat) (ps : List (List PageStub)) :
    ∀ (acc : List PageRec) (calls : List PyStr), acc.length < m →
    get_pages_go (fun u => Except.ok (f u)) (some m) (ps.map Except.ok) acc calls =
      (Except.ok (acc ++ ((ps.flatten.take (m - acc.length)).map fun s => f s.url)),
       calls ++ ((ps.flatten.take (m - acc.length)).map PageStub.url)) := by
  induction ps with
  | nil =>
    intro acc calls hacc
    simp [get_pages_go]
  | cons p rest ih =>
    intro acc calls hacc
    simp only [List.map_cons, get_pages_go]
    rw [get_pages_records_ok f m p acc calls hacc]
    by_cases hle : m ≤ acc.length + p.length
    · rw [decide_eq_true hle]
      have h1 : (p ++ rest.flatten).take (m - acc.length) = p.take (m - acc.length) := by
        rw [List.take_append_eq_append_take]
        rw [show m - acc.length - p.length = 0 from by omega]
        simp
      simp [List.flatten_cons, h1]
    · rw [decide_eq_false hle]
      have h2 : p.take (m - acc.length) = p := List.take_of_length_le (by omega)
      have h3 : (acc ++ (p.map fun s => f s.url)).length = acc.length + p.length := by
        simp
      rw [h2]
      show get_pages_go (fun u => Except.ok (f u)) (some m) (rest.map Except.ok)
          (acc ++ (p.map fun s => f s.url)) (calls ++ p.map PageStub.url) = _
      rw [ih (acc ++ (p.map fun s => f s.url)) (calls ++ p.map PageStub.url)
        (by rw [h3]; omega)]
      rw [h3]
      have h4 : (p ++ rest.flatten).take (m - acc.length) =
          p ++ rest.flatten.take (m - (acc.length + p.length)) := by
        rw [List.take_append_eq_append_take, h2,
          show m - acc.length - p.length = m - (acc.length + p.length) from by omega]
      simp [List.flatten_cons, h4, List.map_append, List.append_assoc]

/-- Characterization of the shared assignments/discussions loop when every
request succeeds: with a positive cap m the result is the m-element prefix
slice of the concatenated listing pages (everything when fewer exist), and
each listing page that is fetched is merged in full before the cap is
tested. -/
theorem get_listing_go_ok {α : Type} (m : Nat) (ps : List (List α)) :
    ∀ acc : List α, acc.length < m →
    get_listing_go (some m) (ps.map Except.ok) acc =
      Except.ok ((acc ++ ps.flatten).take m) := by
  induction ps with
  | nil =>
    intro acc hacc
    simp [get_listing_go, List.take_of_length_le (Nat.le_of_lt hacc)]
  | cons p rest ih =>
    intro acc hacc
    simp only [List.map_cons, get_listing_go]
    by_cases hle : m ≤ acc.length + p.length
    · have hcap : capHit (some m) (acc ++ p).length = true := by
        simp only [capHit, Bool.and_eq_true, bne_iff_ne, ne_eq, decide_eq_true_eq,
          List.length_append]
        omega
      rw [hcap]
      have h1 : ((acc ++ p) ++ rest.flatten).take m = (acc ++ p).take m := by
        rw [List.take_append_eq_append_take,
          show m - (acc ++ p).length = 0 from by simp only [List.length_append]; omega]
        simp
      simp [List.flatten_cons, ← List.append_assoc, h1]
    · have hcap : capHit (some m) (acc ++ p).length = false := by
        rw [Bool.eq_false_iff]
        simp only [ne_eq, capHit, Bool.and_eq_true, bne_iff_ne, decide_eq_true_eq,
          List.length_append]
        omega
      rw [hcap]
      show get_listing_go (some m) (rest.map Except.ok) (acc ++ p) = _
      rw [ih (acc ++ p) (by simp only [List.length_append]; omega)]
      simp [List.flatten_cons, List.append_assoc]

/-- Claim C5 amended: with a positive cap and an all-successful remote,
get_assignments and get_discussions apply the cap only after each full
listing page is merged and return the cap-length prefix slice of the
concatenated pages, as the claim states; get_pages also returns the
cap-length prefix slice of the concatenated enriched records, but it
checks the cap after every individual enriched record, issuing exactly one
detail fetch per returned record and skipping the remaining detail
fetches of the final listing page once the cap is reached mid-page. -/
theorem harvest_cap_granularity (f : PyStr → PageRec) (m : Nat)
    (page_listing : List (List PageStub))
    (assignment_listing : List (List AsgRec))
    (discussion_listing : List (List DiscRec)) :
    get_pages (fun u => Except.ok (f u)) (some (m + 1)) (page_listing.map Except.ok) =
      (Except.ok ((page_listing.flatten.map fun s => f s.url).take (m + 1)),
       (page_listing.flatten.map PageStub.url).take (m + 1))
  ∧ get_assignments (some (m + 1)) (assignment_listing.map Except.ok) =
      Except.ok (assignment_listing.flatten.take (m + 1))
  ∧ get_discussions (some (m + 1)) (discussion_listing.map Except.ok) =
      Except.ok (discussion_listing.flatten.take (m + 1)) := by
  refine ⟨?_, ?_, ?_⟩
  · unfold get_pages
    rw [get_pages_go_ok f (m + 1) page_listing [] [] (Nat.succ_pos m)]
    simp [List.map_take]
  · unfold get_assignments
    rw [get_listing_go_ok (m + 1) assignment_listing [] (Nat.succ_pos m)]
    simp
  · unfold get_discussions
    rw [get_listing_go_ok (m + 1) discussion_listing [] (Nat.succ_pos m)]
    simp

/-- Claim C5 counterexample: with a cap of 1 and one listing page of two
records, get_pages issues exactly one detail fetch and stops mid-page —
the final listing page is not fetched in full once the cap is satisfied,
so the cap is not applied only after each full page is merged. -/
theorem pages_cap_stops_mid_page_cex :
    (get_pages detailOk (some 1) [Except.ok [stubOne, stubTwo]]).2 = ["page-one".data]
  ∧ stubTwo.url ∉ (get_pages detailOk (some 1) [Except.ok [stubOne, stubTwo]]).2
  ∧ (get_pages detailOk (some 1) [Except.ok [stubOne, stubTwo]]).2 ≠
      [stubOne.url, stubTwo.url]
  ∧ (get_pages detailOk (some 1) [Except.ok [stubOne, stubTwo]]).1 =
      Except.ok [PageRec.mk 1 "page-one".data "page-one".data none] := by
  refine ⟨rfl, by decide, by decide, rfl⟩

/-- Claim C5 amended witness: a concrete two-record listing page with cap
1 yields the one-element prefix for assignments and the one-element
enriched prefix with a one-call detail trace for pages. -/
theorem harvest_cap_granularity_witness :
    get_assignments (some (0 + 1))
        ([[AsgRec.mk 21 "A1".data none, AsgRec.mk 22 "A2".data none]].map Except.ok) =
      Except.ok ([[AsgRec.mk 21 "A1".data none,
        AsgRec.mk 22 "A2".data none]].flatten.take (0 + 1))
  ∧ get_pages (fun u => Except.ok (PageRec.mk 1 u u none)) (some (0 + 1))
        ([[stubOne, stubTwo]].map Except.ok) =
      (Except.ok (([[stubOne, stubTwo]].flatten.map
          fun s => PageRec.mk 1 s.url s.url none).take (0 + 1)),
       ([[stubOne, stubTwo]].flatten.map PageStub.url).take (0 + 1)) := by
  have h := harvest_cap_granularity (fun u => PageRec.mk 1 u u none) 0
    [[stubOne, stubTwo]] [[AsgRec.mk 21 "A1".data none, AsgRec.mk 22 "A2".data none]] []
  exact ⟨h.2.1, h.1⟩

/-- A cap of 0 is falsy in the cap test, so the inner get_pages loop
behaves exactly as with no cap. -/
theorem get_pages_records_zero_cap (detail : PyStr → Except PyStr PageRec)
    (rs : List PageStub) : ∀ (acc : List PageRec) (calls : List PyStr),
    get_pages_records detail (some 0) rs acc calls =
      get_pages_records detail none rs acc calls := by
  induction rs with
  | nil => intro acc calls; rfl
  | cons r rest ih =>
    intro acc calls
    simp only [get_pages_records]
    cases hd : detail r.url with
    | error e => rfl
    | ok fp =>
      simp only [show ∀ n, capHit (some 0) n = false from fun _ => rfl,
        show ∀ n, capHit none n = false from fun _ => rfl,
        Bool.false_eq_true, if_false]
      exact ih (acc ++ [fp]) (calls ++ [r.url])

/-- A cap of 0 is falsy in the cap test, so the get_pages page chain
behaves exactly as with no cap. -/
theorem get_pages_go_zero_cap (detail : PyStr → Except PyStr PageRec)
    (ps : List (Except PyStr (List PageStub))) :
    ∀ (acc : List PageRec) (calls : List PyStr),
    get_pages_go detail (some 0) ps acc calls =
      get_pages_go detail none ps acc calls := by
  induction ps with
  | nil => intro acc calls; rfl
  | cons resp rest ih =>
    intro acc calls
    cases resp with
    | error e => rfl
    | ok page =>
      simp only [get_pages_go]
      rw [get_pages_records_zero_cap detail page acc calls]
      rcases hr : get_pages_records detail none page acc calls with ⟨res, calls2⟩
      cases res with
      | error e => rfl
      | ok pr =>
        rcases pr with ⟨flag, items2⟩
        cases flag
        · exact ih items2 calls2
        · rfl

/-- A cap of 0 is falsy in the cap test, so the shared
assignments/discussions loop behaves exactly as with no cap. -/
theorem get_listing_go_zero_cap {α : Type} (ps : List (Except PyStr (List α))) :
    ∀ acc : List α,
    get_listing_go (some 0) ps acc = get_listing_go none ps acc := by
  induction ps with
  | nil => intro acc; rfl
  | cons resp rest ih =>
    intro acc
    simp only [get_listing_go]
    cases resp with
    | error e => rfl
    | ok data => exact ih (acc ++ data)

/-- With no cap and an all-successful remote, the inner get_pages loop
consumes the whole listing page, enriching every record. -/
theorem get_pages_records_none (f : PyStr → PageRec) (rs : List PageStub) :
    ∀ (acc : List PageRec) (calls : List PyStr),
    get_pages_records (fun u => Except.ok (f u)) none rs acc calls =
      (Except.ok (false, acc ++ rs.map fun s => f s.url),
       calls ++ rs.map PageStub.url) := by
  induction rs with
  | nil => intro acc calls; simp [get_pages_records]
  | cons r rest ih =>
    intro acc calls
    simp only [get_pages_records]
    rw [show capHit none (acc ++ [f r.url]).length = false from rfl]
    simp only [Bool.false_eq_true, if_false]
    rw [ih (acc ++ [f r.url]) (calls ++ [r.url])]
    simp [List.append_assoc]

/-- With no cap and an all-successful remote, get_pages returns every
enriched record of every listing page, in order. -/
theorem get_pages_go_none (f : PyStr → PageRec) (ps : List (List PageStub)) :
    ∀ (acc : List PageRec) (calls : List PyStr),
    get_pages_go (fun u => Except.ok (f u)) none (ps.map Except.ok) acc calls =
      (Except.ok (acc ++ ps.flatten.map fun s => f s.url),
       calls ++ ps.flatten.map PageStub.url) := by
  induction ps with
  | nil => intro acc calls; simp [get_pages_go]
  | cons p rest ih =>
    intro acc calls
    simp only [List.map_cons, get_pages_go]
    rw [get_pages_records_none f p acc calls]
    show get_pages_go (fun u => Except.ok (f u)) none (rest.map Except.ok)
        (acc ++ p.map fun s => f s.url) (calls ++ p.map PageStub.url) = _
    rw [ih (acc ++ p.map fun s => f s.url) (calls ++ p.map PageStub.url)]
    simp [List.flatten_cons, List.map_append, List.append_assoc]

/-- With no cap and an all-successful remote, the shared
assignments/discussions loop returns the full concatenation of the
listing pages. -/
theorem get_listing_go_none {α : Type} (ps : List (List α)) :
    ∀ acc : List α,
    get_listing_go none (ps.map Except.ok) acc = Except.ok (acc ++ ps.flatten) := by
  induction ps with
  | nil => intro acc; simp [get_listing_go]
  | cons p rest ih =>
    intro acc
    simp only [List.map_cons, get_listing_go]
    show get_listing_go none (rest.map Except.ok) (acc ++ p) = _
    rw [ih (acc ++ p)]
    simp [List.flatten_cons, List.append_assoc]

/-- Claim C10: because the cap test checks the truthiness of max_items, a
cap of 0 behaves in all three harvest helpers exactly like passing no cap
at all, and with an all-successful remote the helpers then return the
full concatenation of all listing pages rather than an empty sequence. -/
theorem zero_cap_means_no_cap (detail : PyStr → Except PyStr PageRec)
    (pr : List (Except PyStr (List PageStub)))
    (ar : List (Except PyStr (List AsgRec)))
    (dr : List (Except PyStr (List DiscRec)))
    (f : PyStr → PageRec)
    (ps : List (List PageStub)) (asgs : List (List AsgRec)) (ds : List (List DiscRec)) :
    get_pages detail (some 0) pr = get_pages detail none pr
  ∧ get_assignments (some 0) ar = get_assignments none ar
  ∧ get_discussions (some 0) dr = get_discussions none dr
  ∧ (get_pages (fun u => Except.ok (f u)) (some 0) (ps.map Except.ok)).1 =
      Except.ok (ps.flatten.map fun s => f s.url)
  ∧ get_assignments (some 0) (asgs.map Except.ok) = Except.ok asgs.flatten
  ∧ get_discussions (some 0) (ds.map Except.ok) = Except.ok ds.flatten := by
  refine ⟨get_pages_go_zero_cap detail pr [] [], get_listing_go_zero_cap ar [],
    get_listing_go_zero_cap dr [], ?_, ?_, ?_⟩
  · unfold get_pages
    rw [get_pages_go_zero_cap (fun u => Except.ok (f u)) (ps.map Except.ok) [] [],
      get_pages_go_none f ps [] []]
    simp
  · unfold get_assignments
    rw [get_listing_go_zero_cap (asgs.map Except.ok) [], get_listing_go_none asgs []]
    simp
  · unfold get_discussions
    rw [get_listing_go_zero_cap (ds.map Except.ok) [], get_listing_go_none ds []]
    simp

/-- Claim C10 witness: a zero cap over two one-record listing pages
returns both records. -/
theorem zero_cap_means_no_cap_witness :
    get_assignments (some 0)
        ([[AsgRec.mk 31 "B1".data none], [AsgRec.mk 32 "B2".data none]].map Except.ok) =
      Except.ok [AsgRec.mk 31 "B1".data none, AsgRec.mk 32 "B2".data none] := by
  have h := (zero_cap_means_no_cap detailOk [] [] [] (fun u => PageRec.mk 1 u u none) []
    [[AsgRec.mk 31 "B1".data none], [AsgRec.mk 32 "B2".data none]] []).2.2.2.2.1
  simpa using h

/-- Claim C7: if the course check or any of the three harvests of the
fetch handler fails (a non-2xx response anywhere in a listing or detail
request surfaces as such a failure), the handler leaves the previous
registry snapshot untouched and surfaces an error instead of installing
any partial collection; moreover a failing first listing response aborts
get_pages with exactly that error, returning no partial sequence. -/
theorem harvest_failure_preserves_registry (course : Except PyStr Unit)
    (detail : PyStr → Except PyStr PageRec)
    (pr : List (Except PyStr (List PageStub)))
    (ar : List (Except PyStr (List AsgRec)))
    (dr : List (Except PyStr (List DiscRec)))
    (prev : List ContentItem)
    (h : (∃ e, course = Except.error e)
       ∨ (∃ e, (get_pages detail none pr).1 = Except.error e)
       ∨ (∃ e, get_assignments none ar = Except.error e)
       ∨ (∃ e, get_discussions none dr = Except.error e)) :
    (fetch_course_content course detail pr ar dr prev).1 = prev
  ∧ (fetch_course_content course detail pr ar dr prev).2 ≠ none
  ∧ (∀ e rest, (get_pages detail none (Except.error e :: rest)).1 = Except.error e) := by
  have hP : ∃ e2, fetch_course_content course detail pr ar dr prev = (prev, some e2) := by
    unfold fetch_course_content
    rcases h with ⟨e, he⟩ | ⟨e, he⟩ | ⟨e, he⟩ | ⟨e, he⟩
    · rw [he]
      exact ⟨e, rfl⟩
    · cases course with
      | error e2 => exact ⟨e2, rfl⟩
      | ok u =>
        rw [he]
        exact ⟨e, rfl⟩
    · cases course with
      | error e2 => exact ⟨e2, rfl⟩
      | ok u =>
        cases hgp : (get_pages detail none pr).1 with
        | error e2 => exact ⟨e2, rfl⟩
        | ok pages =>
          rw [he]
          exact ⟨e, rfl⟩
    · cases course with
      | error e2 => exact ⟨e2, rfl⟩
      | ok u =>
        cases hgp : (get_pages detail none pr).1 with
        | error e2 => exact ⟨e2, rfl⟩
        | ok pages =>
          cases hga : get_assignments none ar with
          | error e2 => exact ⟨e2, rfl⟩
          | ok assignments =>
            rw [he]
            exact ⟨e, rfl⟩
  obtain ⟨e2, hP⟩ := hP
  rw [hP]
  exact ⟨rfl, by simp, fun e rest => rfl⟩

/-- Claim C7 witness: a failing page listing response leaves a one-item
previous registry untouched and surfaces an error. -/
theorem harvest_failure_preserves_registry_witness :
    (fetch_course_content (Except.ok ()) detailOk
      [Except.error "500 Internal Server Error".data] [] [] [itemGoodPage]).1 =
      [itemGoodPage]
  ∧ (fetch_course_content (Except.ok ()) detailOk
      [Except.error "500 Internal Server Error".data] [] [] [itemGoodPage]).2 ≠ none := by
  have h := harvest_failure_preserves_registry (Except.ok ()) detailOk
    [Except.error "500 Internal Server Error".data] [] [] [itemGoodPage]
    (Or.inr (Or.inl ⟨"500 Internal Server Error".data, rfl⟩))
  exact ⟨h.1, h.2.1⟩
